/-
  Verification of the SQLAir CSV database engine (src/SQLAir.cpp).

  Shallow embedding: the C++ methods `processSelectRow`, `selectQuery`,
  `processUpdateRow`, `updateQuery`, `loadAndGet`, `saveQuery` and the
  scheduler loop of `runServer` are translated into Lean as pure functions
  (fallible code returns `Except`, mutation is explicit state passing,
  the blocking wait loops and the scheduler become step relations).

  Parts of the repository that are declared outside src/ (the CSV class,
  the `SQLAirBase::matches` predicate evaluator, file/network I/O) are
  modelled from the spec: the predicate evaluator and the source loader are
  abstract function parameters, and the CSV column metadata follows the
  spec's data model (§3).
-/
import Mathlib

namespace SQLAir

/-- A string vector, as C++ `StrVec = std::vector<std::string>`. -/
abbrev StrVec := List String

/-- Modelled from the spec (§3, Row): one CSV row is an ordered sequence of
string fields (the `CSVRow` class is declared outside src/; its row mutex is
irrelevant in the sequential embedding — interleaving is handled by the step
relations below). -/
structure CSVRow where
  fields : List String
  deriving DecidableEq, Repr

/-- Modelled from the spec (§3, Table): a CSV table is an ordered sequence of
column names (defined order, names unique) plus an ordered sequence of rows
(the `CSV` class is declared outside src/). -/
structure CSV where
  columnNames : StrVec
  rows : List CSVRow
  deriving DecidableEq, Repr

/-- Modelled from the spec (§4.3): `CSV::getColumnNames` returns all table
columns in their defined order. -/
def CSV.getColumnNames (csv : CSV) : StrVec := csv.columnNames

/-- Modelled from the spec (§3): the table's column-name-to-index mapping;
an unknown column is a malformed-request error (§7). -/
def CSV.getColumnIndex (csv : CSV) (name : String) : Except String Nat :=
  match csv.columnNames.indexOf? name with
  | some i => Except.ok i
  | none => Except.error ("unknown column " ++ name)

/-- Checked indexing `std::vector::at` on a string vector: throws `std::out_of_range` when the
index is out of bounds. -/
def vecAt (xs : List String) (i : Nat) : Except String String :=
  match xs.get? i with
  | some v => Except.ok v
  | none => Except.error "vector::at: out_of_range"

/-- Unchecked indexing `std::vector::operator[]`; an out-of-range access is
undefined behavior in C++, modelled here as a distinguished error outcome. -/
def vecIdx (xs : List String) (i : Nat) : Except String String :=
  match xs.get? i with
  | some v => Except.ok v
  | none => Except.error "UB: vector operator[] out of range"

/-- Field access `row.at(whereColIdx)` where `whereColIdx` is a C++ `int`: a negative index
converts to a huge `size_t`, so it throws `out_of_range`. -/
def CSVRow.atI (r : CSVRow) (i : Int) : Except String String :=
  if i < 0 then Except.error "vector::at: out_of_range"
  else vecAt r.fields i.toNat

/-- Field write `row.at(idx) = v`: writing one field through `std::vector::at` (throws on a
bad index, otherwise overwrites in place). -/
def CSVRow.setAt (r : CSVRow) (i : Nat) (v : String) : Except String CSVRow :=
  if i < r.fields.length then Except.ok ⟨r.fields.set i v⟩
  else Except.error "vector::at: out_of_range"

/-- The `where`-clause test applied to one row, as in SQLAir.cpp lines 48-49
and 100-101: `whereColIdx == -1 || matches(row.at(whereColIdx), cond, value)`,
with short-circuit evaluation. The predicate evaluator `m` stands for the
external `SQLAirBase::matches` (declared outside src/). -/
def rowMatch (m : String → String → String → Bool) (whereColIdx : Int)
    (cond value : String) (r : CSVRow) : Except String Bool :=
  if whereColIdx = -1 then Except.ok true
  else do
    let f ← r.atI whereColIdx
    Except.ok (m f cond value)

/-- The fields a select emits for one row (SQLAir.cpp lines 51-54): for each
requested column name, `printRow.at(csv.getColumnIndex(colName))`. -/
def selectFields (csv : CSV) (r : CSVRow) : List String → Except String (List String)
  | [] => Except.ok []
  | n :: ns => do
    let i ← csv.getColumnIndex n
    let f ← vecAt r.fields i
    let rest ← selectFields csv r ns
    Except.ok (f :: rest)

/-- One printed row of select output: the selected fields joined by the tab
delimiter (the `delim` accumulation of SQLAir.cpp lines 50-54). -/
def selectLine (csv : CSV) (colNames : StrVec) (r : CSVRow) : Except String String := do
  let fs ← selectFields csv r colNames
  Except.ok (String.intercalate "\t" fs)

/-- The row loop of `SQLAir::processSelectRow` (lines 41-58) over an explicit
row list: snapshot each row, test the optional `where` clause, and append the
selected columns of each matching row followed by a newline. Returns the
match count and the appended text. -/
def scanRows (m : String → String → String → Bool) (colNames : StrVec) (csv : CSV)
    (whereColIdx : Int) (cond value : String) : List CSVRow → Except String (Nat × String)
  | [] => Except.ok (0, "")
  | r :: rs => do
    let matched ← rowMatch m whereColIdx cond value r
    let cur ←
      if matched then do
        let line ← selectLine csv colNames r
        Except.ok ((1 : Nat), line ++ "\n")
      else Except.ok ((0 : Nat), "")
    let rest ← scanRows m colNames csv whereColIdx cond value rs
    Except.ok (cur.1 + rest.1, cur.2 ++ rest.2)

/-- The method `SQLAir::processSelectRow` (SQLAir.cpp lines 36-60): scan all rows of the
table, returning the number of rows selected and the text to print. -/
def processSelectRow (m : String → String → String → Bool) (colNames : StrVec)
    (csv : CSV) (whereColIdx : Int) (cond value : String) : Except String (Nat × String) :=
  scanRows m colNames csv whereColIdx cond value csv.rows

/-- The `*` expansion shared by `selectQuery` (lines 69-71) and `updateQuery`
(lines 118-120): `if (colNames.at(0) == "*") colNames = csv.getColumnNames()`. -/
def resolveColNames (csv : CSV) (colNames : StrVec) : Except String StrVec := do
  let first ← vecAt colNames 0
  Except.ok (if first = "*" then csv.getColumnNames else colNames)

/-- Outcome of `selectQuery`: either the call returns with a row count and the
accumulated row text, or (waitMode set, zero matches) it blocks on the table's
condition signal — in the sequential embedding no concurrent update can occur,
so the wait loop of lines 77-84 never exits; progress under concurrency is
modelled by the step relation `SelStep` below. -/
inductive SelResult where
  | ret (count : Nat) (toPrint : String)
  | blocked (toPrint : String)
  deriving DecidableEq, Repr

/-- The method `SQLAir::selectQuery` (SQLAir.cpp lines 64-89): expand `*`, scan the rows,
and either return the count (the `os` formatting of lines 85-88 is outside the
embedded fragment) or block when `mustWait` is set and no row matched. -/
def selectQuery (m : String → String → String → Bool) (csv : CSV) (mustWait : Bool)
    (colNames : StrVec) (whereColIdx : Int) (cond value : String) :
    Except String SelResult := do
  let cols ← resolveColNames csv colNames
  let res ← processSelectRow m cols csv whereColIdx cond value
  if mustWait ∧ res.1 < 1 then Except.ok (SelResult.blocked res.2)
  else Except.ok (SelResult.ret res.1 res.2)

/-- The inner assignment loop of `SQLAir::processUpdateRow` (lines 102-104):
for each `i`, `row.at(csv.getColumnIndex(colNames[i])) = values[i]`; the
right-hand `values[i]` is unchecked `operator[]`, evaluated before the
left-hand side (C++17 assignment sequencing). -/
def writeFields (csv : CSV) (values : StrVec) :
    List String → Nat → CSVRow → Except String CSVRow
  | [], _, r => Except.ok r
  | n :: ns, i, r => do
    let v ← vecIdx values i
    let idx ← csv.getColumnIndex n
    let r' ← r.setAt idx v
    writeFields csv values ns (i + 1) r'

/-- The row loop of `SQLAir::processUpdateRow` (lines 97-107) over an explicit
row list: under each row's lock, test the `where` clause and overwrite the
named columns of each matching row with the corresponding values. Returns the
update count and the resulting rows. -/
def updateRows (m : String → String → String → Bool) (csv : CSV) (whereColIdx : Int)
    (colNames : StrVec) (cond value : String) (values : StrVec) :
    List CSVRow → Except String (Nat × List CSVRow)
  | [] => Except.ok (0, [])
  | r :: rs => do
    let matched ← rowMatch m whereColIdx cond value r
    let cur ←
      if matched then do
        let r' ← writeFields csv values colNames 0 r
        Except.ok ((1 : Nat), r')
      else Except.ok ((0 : Nat), r)
    let rest ← updateRows m csv whereColIdx colNames cond value values rs
    Except.ok (cur.1 + rest.1, cur.2 :: rest.2)

/-- The method `SQLAir::processUpdateRow` (SQLAir.cpp lines 93-109): scan all rows,
updating those that match; returns the count and the table's new rows. -/
def processUpdateRow (m : String → String → String → Bool) (csv : CSV)
    (whereColIdx : Int) (colNames : StrVec) (cond value : String) (values : StrVec) :
    Except String (Nat × List CSVRow) :=
  updateRows m csv whereColIdx colNames cond value values csv.rows

/-- Outcome of `updateQuery`: a normal return carries the updated table, the
count, and whether `csvCondVar.notify_all()` was invoked (lines 132-134);
`blocked` is the sequential reading of the wait loop (lines 124-131) when
`mustWait` is set and no row matched. -/
inductive UpdResult where
  | ret (csv : CSV) (count : Nat) (notified : Bool)
  | blocked (csv : CSV)
  deriving DecidableEq, Repr

/-- The method `SQLAir::updateQuery` (SQLAir.cpp lines 112-136): expand `*`, update the
matching rows, block when `mustWait` is set and no row matched, and notify all
condition-variable waiters exactly when the count is positive. -/
def updateQuery (m : String → String → String → Bool) (csv : CSV) (mustWait : Bool)
    (colNames : StrVec) (values : StrVec) (whereColIdx : Int) (cond value : String) :
    Except String UpdResult := do
  let cols ← resolveColNames csv colNames
  let res ← processUpdateRow m csv whereColIdx cols cond value values
  let csv' : CSV := ⟨csv.columnNames, res.2⟩
  if mustWait ∧ res.1 < 1 then Except.ok (UpdResult.blocked csv')
  else Except.ok (UpdResult.ret csv' res.1 (decide (0 < res.1)))

/-! ## Table registry: `loadAndGet` and `saveQuery` -/

/-- An association map keyed by strings, modelling `std::unordered_map`
lookups and `operator[]` insertion over the registry and the file system. -/
abbrev SMap (α : Type) := List (String × α)

/-- Lookup as in `unordered_map::find` / `at`: the value stored under a key, if any. -/
def mapFind {α : Type} : SMap α → String → Option α
  | [], _ => none
  | (k', v) :: rest, k => if k' = k then some v else mapFind rest k

/-- Insertion `map[k] = v`: replace the value under an existing key, else append. -/
def mapSet {α : Type} : SMap α → String → α → SMap α
  | [], k, v => [(k, v)]
  | (k', v') :: rest, k, v =>
    if k' = k then (k', v) :: rest else (k', v') :: mapSet rest k v

/-- Lookup as in `unordered_map::at`: returns the stored value or throws
`std::out_of_range` when the key is absent. -/
def mapAt {α : Type} (mp : SMap α) (k : String) : Except String α :=
  match mapFind mp k with
  | some v => Except.ok v
  | none => Except.error "unordered_map::at: key not found"

/-- The test `fileOrURL.find("http://") == 0` of SQLAir.cpp (a leading
`http://` marks a remote source), evaluated on the character list. -/
def hasHttpScheme (s : String) : Bool := s.data.take 7 == "http://".data

/-- The registry state guarded by `recentCSVMutex` in SQLAir.cpp: the cache of
in-memory tables and the most-recently-used identifier. -/
structure Registry where
  recentCSV : String
  inMemoryCSV : SMap CSV
  deriving DecidableEq, Repr

/-- The method `SQLAir::loadAndGet` (SQLAir.cpp lines 216-257): substitute the
most-recent identifier when the argument is empty, record the (possibly
substituted) identifier as the new most-recent, return the cached table on a
hit, otherwise load from the source (the external file/URL I/O is the
parameter `load`) and insert the result. The registry state is returned even
when the load fails, since the recency update has already happened. -/
def loadAndGet (load : String → Except String CSV) (st : Registry)
    (fileOrURL : String) : Registry × Except String CSV :=
  let id := if fileOrURL = "" then st.recentCSV else fileOrURL
  match mapFind st.inMemoryCSV id with
  | some csv => (⟨id, st.inMemoryCSV⟩, Except.ok csv)
  | none =>
    match load id with
    | Except.error e => (⟨id, st.inMemoryCSV⟩, Except.error e)
    | Except.ok csv =>
      let mp := mapSet st.inMemoryCSV id csv
      (⟨id, mp⟩, mapAt mp id)

/-- The local file system seen by `saveQuery`: file name to contents. -/
abbrev FS := SMap String

/-- The method `SQLAir::saveQuery` (SQLAir.cpp lines 260-268): reject an empty or remote
identifier; otherwise the `std::ofstream` constructor creates or truncates
the destination file, then `inMemoryCSV.at(recentCSV)` looks the table up
(throwing when absent) and the table writes itself (`CSV::save`, an external
codec modelled by the parameter `csvSave`). The file system is returned even
when the lookup throws, since the truncation has already happened. -/
def saveQuery (csvSave : CSV → String) (st : Registry) (fs : FS) :
    FS × Except String String :=
  if st.recentCSV = "" ∨ hasHttpScheme st.recentCSV then
    (fs, Except.error "Saving CSV to an URL using POST is not implemented")
  else
    let fs1 := mapSet fs st.recentCSV ""
    match mapFind st.inMemoryCSV st.recentCSV with
    | none => (fs1, Except.error "unordered_map::at: key not found")
    | some csv => (mapSet fs1 st.recentCSV (csvSave csv), Except.ok (st.recentCSV ++ " saved.\n"))

/-! ## The blocking select/update protocol as step relations

`selectQuery`'s wait loop (SQLAir.cpp lines 77-84), `updateQuery`'s wait
loop (lines 124-131) and `updateQuery`'s notification (lines 132-134)
interact through the table's condition variable. The joint behavior of one
blocked client (a selector, or an updater) and concurrent updater threads is
a transition system over the shared table and that client's control point. -/

/-- Control point of a thread executing `selectQuery`'s scan/wait loop:
about to run the first scan, blocked in `csvCondVar.wait`, woken and about to
re-scan, or returned with a final count. Each phase carries the `toPrint`
text accumulated so far (the string is appended across scans, never reset). -/
inductive SelPhase where
  | scanning (toPrint : String)
  | waiting (toPrint : String)
  | woken (toPrint : String)
  | done (count : Nat) (toPrint : String)
  deriving DecidableEq, Repr

/-- Joint state: the shared table and the selector thread's control point. -/
structure SelSys where
  csv : CSV
  sel : SelPhase
  deriving DecidableEq, Repr

/-- The effect of `notify_all` as seen by the selector: a blocked waiter becomes woken;
every other phase is unaffected. -/
def notifySel : SelPhase → SelPhase
  | SelPhase.waiting tp => SelPhase.woken tp
  | p => p

/-- One interleaved step of the blocking-select protocol with `mustWait` set
(selector parameters `m`, `cols` (already `*`-resolved), `w`, `cond`, `v`):
the selector's first scan either returns (some match) or blocks (none); a
woken selector re-runs the full scan under the same rule; a condition
variable `wait` may also wake spuriously; and an updater thread may commit
`processUpdateRow` with arbitrary arguments, notifying all waiters exactly
when its count is positive (SQLAir.cpp lines 122-134). -/
inductive SelStep (m : String → String → String → Bool) (cols : StrVec)
    (w : Int) (cond v : String) : SelSys → SelSys → Prop
  | firstScanDone {csv tp c s} :
      processSelectRow m cols csv w cond v = Except.ok (c, s) → 0 < c →
      SelStep m cols w cond v ⟨csv, SelPhase.scanning tp⟩ ⟨csv, SelPhase.done c (tp ++ s)⟩
  | firstScanBlock {csv tp s} :
      processSelectRow m cols csv w cond v = Except.ok (0, s) →
      SelStep m cols w cond v ⟨csv, SelPhase.scanning tp⟩ ⟨csv, SelPhase.waiting (tp ++ s)⟩
  | rescanDone {csv tp c s} :
      processSelectRow m cols csv w cond v = Except.ok (c, s) → 0 < c →
      SelStep m cols w cond v ⟨csv, SelPhase.woken tp⟩ ⟨csv, SelPhase.done c (tp ++ s)⟩
  | rescanBlock {csv tp s} :
      processSelectRow m cols csv w cond v = Except.ok (0, s) →
      SelStep m cols w cond v ⟨csv, SelPhase.woken tp⟩ ⟨csv, SelPhase.waiting (tp ++ s)⟩
  | spuriousWake {csv tp} :
      SelStep m cols w cond v ⟨csv, SelPhase.waiting tp⟩ ⟨csv, SelPhase.woken tp⟩
  | updateCommit {csv sel ucols uvals uw ucond uv uc rows'} :
      processUpdateRow m csv uw ucols ucond uv uvals = Except.ok (uc, rows') →
      SelStep m cols w cond v ⟨csv, sel⟩
        ⟨⟨csv.columnNames, rows'⟩, if 0 < uc then notifySel sel else sel⟩

/-- Control point of a thread executing `updateQuery`'s scan/wait loop
(SQLAir.cpp lines 122-131): about to run the first update scan, blocked in
`csvCondVar.wait`, woken and about to re-scan, or returned with a final
count. -/
inductive UpdPhase where
  | scanning
  | waiting
  | woken
  | done (count : Nat)
  deriving DecidableEq, Repr

/-- Joint state: the shared table and the blocked updater's control point. -/
structure UpdWaitSys where
  csv : CSV
  upd : UpdPhase
  deriving DecidableEq, Repr

/-- The effect of `notify_all` as seen by the blocked updater: a blocked
waiter becomes woken; every other phase is unaffected. -/
def notifyUpd : UpdPhase → UpdPhase
  | UpdPhase.waiting => UpdPhase.woken
  | p => p

/-- One interleaved step of the blocking-update protocol with `mustWait` set
(blocked updater parameters `m`, `bcols` (already `*`-resolved), `bw`,
`bcond`, `bv`, `bvals`): the updater's scan mutates the table and either
returns (positive count, lines 124-125 exit the loop) or blocks on the
condition variable (lines 126-127); a woken updater re-runs the full update
scan (lines 128-129); a `wait` may also wake spuriously; and another client's
update may commit `processUpdateRow` with arbitrary arguments, notifying all
waiters exactly when its count is positive (lines 132-134). -/
inductive UpdWaitStep (m : String → String → String → Bool) (bcols : StrVec)
    (bw : Int) (bcond bv : String) (bvals : StrVec) : UpdWaitSys → UpdWaitSys → Prop
  | firstScanDone {csv c rows'} :
      processUpdateRow m csv bw bcols bcond bv bvals = Except.ok (c, rows') → 0 < c →
      UpdWaitStep m bcols bw bcond bv bvals ⟨csv, UpdPhase.scanning⟩
        ⟨⟨csv.columnNames, rows'⟩, UpdPhase.done c⟩
  | firstScanBlock {csv rows'} :
      processUpdateRow m csv bw bcols bcond bv bvals = Except.ok (0, rows') →
      UpdWaitStep m bcols bw bcond bv bvals ⟨csv, UpdPhase.scanning⟩
        ⟨⟨csv.columnNames, rows'⟩, UpdPhase.waiting⟩
  | rescanDone {csv c rows'} :
      processUpdateRow m csv bw bcols bcond bv bvals = Except.ok (c, rows') → 0 < c →
      UpdWaitStep m bcols bw bcond bv bvals ⟨csv, UpdPhase.woken⟩
        ⟨⟨csv.columnNames, rows'⟩, UpdPhase.done c⟩
  | rescanBlock {csv rows'} :
      processUpdateRow m csv bw bcols bcond bv bvals = Except.ok (0, rows') →
      UpdWaitStep m bcols bw bcond bv bvals ⟨csv, UpdPhase.woken⟩
        ⟨⟨csv.columnNames, rows'⟩, UpdPhase.waiting⟩
  | spuriousWake {csv} :
      UpdWaitStep m bcols bw bcond bv bvals ⟨csv, UpdPhase.waiting⟩
        ⟨csv, UpdPhase.woken⟩
  | envUpdate {csv ph ucols uvals uw ucond uv uc rows'} :
      processUpdateRow m csv uw ucols ucond uv uvals = Except.ok (uc, rows') →
      UpdWaitStep m bcols bw bcond bv bvals ⟨csv, ph⟩
        ⟨⟨csv.columnNames, rows'⟩, if 0 < uc then notifyUpd ph else ph⟩

/-! ## The connection scheduler as a step relation

`runServer` (SQLAir.cpp lines 169-187) admits a connection only when
`numThreads < maxThr`, then spawns a detached worker and increments the
counter; each worker runs `serveClient`, whose last lines (164-165) decrement
the counter and signal `thrCond`. The spawn and the increment are separate
statements, and the worker's decrement takes no lock, so the relation keeps
them as separate interleavable steps. -/

/-- Control point of the scheduler loop: blocked in `accept`, past the
`thrCond.wait` admission check, or between `thr.detach()` and
`numThreads++`. -/
inductive SrvPhase where
  | accepting
  | admitted
  | spawned
  deriving DecidableEq, Repr

/-- Scheduler system state: the shared `numThreads` counter (a C++ `int`,
possibly transiently negative when a worker finishes before the scheduler's
increment), the scheduler's control point, and the number of live workers. -/
structure SrvState where
  numThreads : Int
  phase : SrvPhase
  running : Nat
  deriving DecidableEq, Repr

/-- One step of the scheduler/worker system with limit `maxThr`: `admitConn`
passes the `thrCond.wait` predicate `numThreads < maxThr` (line 180-181),
`spawn` detaches a worker (lines 183-184), `increment` performs
`numThreads++` (line 185), and `finish` is a worker's `numThreads--` plus
`thrCond.notify_one()` (lines 164-165), possible at any interleaving point. -/
inductive SrvStep (maxThr : Int) : SrvState → SrvState → Prop
  | admitConn {n r} : n < maxThr →
      SrvStep maxThr ⟨n, SrvPhase.accepting, r⟩ ⟨n, SrvPhase.admitted, r⟩
  | spawn {n r} :
      SrvStep maxThr ⟨n, SrvPhase.admitted, r⟩ ⟨n, SrvPhase.spawned, r + 1⟩
  | increment {n r} :
      SrvStep maxThr ⟨n, SrvPhase.spawned, r⟩ ⟨n + 1, SrvPhase.accepting, r⟩
  | finish {n p r} :
      SrvStep maxThr ⟨n, p, r + 1⟩ ⟨n - 1, p, r⟩

/-- The scheduler's initial state: counter zero, blocked in `accept`, no
workers. -/
def srvInit : SrvState := ⟨0, SrvPhase.accepting, 0⟩

/-! ## Specification-side predicate and concrete fixtures -/

/-- The `where`-clause test as a total Boolean predicate (used to state that
the scan counts exactly the matching rows): an omitted predicate
(`whereColIdx = -1`) matches every row, otherwise the designated column's
field is tested. Meaningful when the designated index is in range. -/
def rowMatchB (m : String → String → String → Bool) (whereColIdx : Int)
    (cond value : String) (r : CSVRow) : Bool :=
  decide (whereColIdx = -1) || m (r.fields.getD whereColIdx.toNat "") cond value

/-- A concrete predicate evaluator for witnesses: string equality of the
row's field with the literal. -/
def mEq : String → String → String → Bool := fun f _ v => decide (f = v)

/-- The spec's §8 scenario table: columns `name`, `age`, rows
`("Ann","30")` and `("Bob","25")`. -/
def peopleCSV : CSV := ⟨["name", "age"], [⟨["Ann", "30"]⟩, ⟨["Bob", "25"]⟩]⟩

/-! ## Helper lemmas -/

theorem bindOk {ε α β : Type} (a : α) (f : α → Except ε β) :
    (Except.ok a >>= f : Except ε β) = f a := rfl

theorem bindErr {ε α β : Type} (e : ε) (f : α → Except ε β) :
    (Except.error e >>= f : Except ε β) = Except.error e := rfl

theorem mapFind_mapSet_self {α : Type} (mp : SMap α) (k : String) (v : α) :
    mapFind (mapSet mp k v) k = some v := by
  induction mp with
  | nil => simp [mapSet, mapFind]
  | cons hd t ih =>
    obtain ⟨k', v'⟩ := hd
    by_cases hk : k' = k
    · simp [mapSet, hk, mapFind]
    · simp [mapSet, hk, mapFind, ih]

/-- The select scan counts exactly the rows satisfying the (totalized)
`where` predicate, whenever each row's predicate evaluation succeeds. -/
theorem scanRows_count (m : String → String → String → Bool) (cols : StrVec)
    (csv : CSV) (w : Int) (cond v : String) (rows : List CSVRow) :
    ∀ (c : Nat) (s : String),
      (∀ r ∈ rows, rowMatch m w cond v r = Except.ok (rowMatchB m w cond v r)) →
      scanRows m cols csv w cond v rows = Except.ok (c, s) →
      c = rows.countP (rowMatchB m w cond v) := by
  induction rows with
  | nil =>
    intro c s _ h
    simp only [scanRows, Except.ok.injEq, Prod.mk.injEq] at h
    simp [← h.1]
  | cons r rs ih =>
    intro c s hall h
    have hm : rowMatch m w cond v r = Except.ok (rowMatchB m w cond v r) :=
      hall r (List.mem_cons_self r rs)
    simp only [scanRows, hm, bindOk] at h
    by_cases hb : rowMatchB m w cond v r = true
    · simp only [if_pos hb] at h
      cases hline : selectLine csv cols r with
      | error e => simp only [hline, bindErr] at h; exact absurd h (by simp)
      | ok line =>
        simp only [hline, bindOk] at h
        cases hrest : scanRows m cols csv w cond v rs with
        | error e => simp only [hrest, bindErr] at h; exact absurd h (by simp)
        | ok p =>
          obtain ⟨c', s'⟩ := p
          simp only [hrest, bindOk, Except.ok.injEq, Prod.mk.injEq] at h
          have hc' := ih c' s' (fun r hr => hall r (List.mem_cons_of_mem _ hr)) hrest
          simp only [List.countP_cons, hb, if_pos]
          omega
    · simp only [if_neg hb, bindOk] at h
      cases hrest : scanRows m cols csv w cond v rs with
      | error e => simp only [hrest, bindErr] at h; exact absurd h (by simp)
      | ok p =>
        obtain ⟨c', s'⟩ := p
        simp only [hrest, bindOk, Except.ok.injEq, Prod.mk.injEq] at h
        have hc' := ih c' s' (fun r hr => hall r (List.mem_cons_of_mem _ hr)) hrest
        simp [List.countP_cons, hb]
        omega

/-- The update scan counts exactly the rows satisfying the (totalized)
`where` predicate, whenever each row's predicate evaluation succeeds. -/
theorem updateRows_count (m : String → String → String → Bool) (csv : CSV)
    (w : Int) (cols : StrVec) (cond v : String) (values : StrVec) (rows : List CSVRow) :
    ∀ (c : Nat) (rows' : List CSVRow),
      (∀ r ∈ rows, rowMatch m w cond v r = Except.ok (rowMatchB m w cond v r)) →
      updateRows m csv w cols cond v values rows = Except.ok (c, rows') →
      c = rows.countP (rowMatchB m w cond v) := by
  induction rows with
  | nil =>
    intro c rows' _ h
    simp only [updateRows, Except.ok.injEq, Prod.mk.injEq] at h
    simp [← h.1]
  | cons r rs ih =>
    intro c rows' hall h
    have hm : rowMatch m w cond v r = Except.ok (rowMatchB m w cond v r) :=
      hall r (List.mem_cons_self r rs)
    simp only [updateRows, hm, bindOk] at h
    by_cases hb : rowMatchB m w cond v r = true
    · simp only [if_pos hb] at h
      cases hwf : writeFields csv values cols 0 r with
      | error e => simp only [hwf, bindErr] at h; exact absurd h (by simp)
      | ok r' =>
        simp only [hwf, bindOk] at h
        cases hrest : updateRows m csv w cols cond v values rs with
        | error e => simp only [hrest, bindErr] at h; exact absurd h (by simp)
        | ok p =>
          obtain ⟨c', rs'⟩ := p
          simp only [hrest, bindOk, Except.ok.injEq, Prod.mk.injEq] at h
          have hc' := ih c' rs' (fun r hr => hall r (List.mem_cons_of_mem _ hr)) hrest
          simp only [List.countP_cons, hb, if_pos]
          omega
    · simp only [if_neg hb, bindOk] at h
      cases hrest : updateRows m csv w cols cond v values rs with
      | error e => simp only [hrest, bindErr] at h; exact absurd h (by simp)
      | ok p =>
        obtain ⟨c', rs'⟩ := p
        simp only [hrest, bindOk, Except.ok.injEq, Prod.mk.injEq] at h
        have hc' := ih c' rs' (fun r hr => hall r (List.mem_cons_of_mem _ hr)) hrest
        simp [List.countP_cons, hb]
        omega

/-- When a row in the scanned list matches, the scan's count is positive and
the row's formatted line (followed by the newline) occurs in the appended
text. -/
theorem scanRows_mem_line (m : String → String → String → Bool) (cols : StrVec)
    (csv : CSV) (w : Int) (cond v : String) (rows : List CSVRow) :
    ∀ (c : Nat) (s : String) (r : CSVRow),
      r ∈ rows → rowMatch m w cond v r = Except.ok true →
      scanRows m cols csv w cond v rows = Except.ok (c, s) →
      1 ≤ c ∧ ∃ pre line post, selectLine csv cols r = Except.ok line ∧
        s = pre ++ (line ++ "\n") ++ post := by
  induction rows with
  | nil => intro c s r hr; exact absurd hr (List.not_mem_nil r)
  | cons r0 rs ih =>
    intro c s r hr hm h
    rcases List.mem_cons.mp hr with heq | hmem
    · subst heq
      simp only [scanRows, hm, bindOk, if_pos] at h
      cases hline : selectLine csv cols r with
      | error e => simp only [hline, bindErr] at h; exact absurd h (by simp)
      | ok line =>
        simp only [hline, bindOk] at h
        cases hrest : scanRows m cols csv w cond v rs with
        | error e => simp only [hrest, bindErr] at h; exact absurd h (by simp)
        | ok p =>
          obtain ⟨c', s'⟩ := p
          simp only [hrest, bindOk, Except.ok.injEq, Prod.mk.injEq] at h
          refine ⟨by omega, "", line, s', rfl, ?_⟩
          rw [← h.2]
          simp [String.append_assoc]
    · cases hm0 : rowMatch m w cond v r0 with
      | error e => simp only [scanRows, hm0, bindErr] at h; exact absurd h (by simp)
      | ok b =>
        simp only [scanRows, hm0, bindOk] at h
        cases b with
        | true =>
          simp only [if_pos] at h
          cases hline : selectLine csv cols r0 with
          | error e => simp only [hline, bindErr] at h; exact absurd h (by simp)
          | ok line0 =>
            simp only [hline, bindOk] at h
            cases hrest : scanRows m cols csv w cond v rs with
            | error e => simp only [hrest, bindErr] at h; exact absurd h (by simp)
            | ok p =>
              obtain ⟨c', s'⟩ := p
              simp only [hrest, bindOk, Except.ok.injEq, Prod.mk.injEq] at h
              obtain ⟨hc', pre, line, post, hl, hs⟩ := ih c' s' r hmem hm hrest
              refine ⟨by omega, (line0 ++ "\n") ++ pre, line, post, hl, ?_⟩
              rw [← h.2, hs]
              simp [String.append_assoc]
        | false =>
          simp only [if_neg, Bool.false_eq_true, not_false_iff] at h
          cases hrest : scanRows m cols csv w cond v rs with
          | error e => simp only [hrest, bindErr] at h; exact absurd h (by simp)
          | ok p =>
            obtain ⟨c', s'⟩ := p
            simp only [hrest, bindOk, Except.ok.injEq, Prod.mk.injEq] at h
            obtain ⟨hc', pre, line, post, hl, hs⟩ := ih c' s' r hmem hm hrest
            refine ⟨by omega, pre, line, post, hl, ?_⟩
            rw [← h.2, hs]
            simp [String.append_assoc]

/-- The fallible row predicate agrees with its total Boolean counterpart
whenever the designated column index is omitted or in range. -/
theorem rowMatch_eq_rowMatchB (m : String → String → String → Bool) (w : Int)
    (cond v : String) (r : CSVRow)
    (hw : w = -1 ∨ (0 ≤ w ∧ w.toNat < r.fields.length)) :
    rowMatch m w cond v r = Except.ok (rowMatchB m w cond v r) := by
  rcases hw with hw | ⟨hw0, hwl⟩
  · subst hw; simp [rowMatch, rowMatchB]
  · have hne : w ≠ -1 := by omega
    have hnneg : ¬ w < 0 := by omega
    cases hg : r.fields.get? w.toNat with
    | none =>
      exfalso
      rw [List.get?_eq_getElem?, List.getElem?_eq_none_iff] at hg
      omega
    | some f =>
      have hgd : r.fields.getD w.toNat "" = f := by
        rw [List.getD_eq_getElem?_getD, ← List.get?_eq_getElem?, hg]
        rfl
      simp only [rowMatch, if_neg hne, CSVRow.atI, if_neg hnneg, vecAt, hg, bindOk,
        rowMatchB, hgd]
      simp [hne]
/-- The assignment loop reads only the first `i + names.length` values, so
truncating the values list beyond that point does not change it. -/
theorem writeFields_take (csv : CSV) (values : StrVec) (names : List String) :
    ∀ (i : Nat) (r : CSVRow) (n : Nat), i + names.length ≤ n →
      writeFields csv (values.take n) names i r = writeFields csv values names i r := by
  induction names with
  | nil => intro i r n _; rfl
  | cons nm ns ih =>
    intro i r n hle
    have hv : vecIdx (values.take n) i = vecIdx values i := by
      unfold vecIdx
      rw [List.get?_eq_getElem?, List.get?_eq_getElem?,
        List.getElem?_take_of_lt (by simp at hle; omega)]
    simp only [writeFields, hv]
    cases vecIdx values i with
    | error e => rfl
    | ok v =>
      simp only [bindOk]
      cases csv.getColumnIndex nm with
      | error e => rfl
      | ok idx =>
        simp only [bindOk]
        cases r.setAt idx v with
        | error e => rfl
        | ok r' =>
          simp only [bindOk]
          exact ih (i + 1) r' n (by simp at hle; omega)

/-- The update scan is unchanged when the values list is truncated to the
column-list length: entries beyond the column list are never read. -/
theorem updateRows_take (m : String → String → String → Bool) (csv : CSV)
    (w : Int) (cols : StrVec) (cond v : String) (values : StrVec) (rows : List CSVRow) :
    updateRows m csv w cols cond v (values.take cols.length) rows
      = updateRows m csv w cols cond v values rows := by
  induction rows with
  | nil => rfl
  | cons r rs ih =>
    simp only [updateRows]
    cases rowMatch m w cond v r with
    | error e => rfl
    | ok b =>
      simp only [bindOk]
      rw [writeFields_take csv values cols 0 r cols.length (by omega), ih]

/-- Every step of the blocking-select system preserves the invariant that a
returned selector saw a positive match count. -/
theorem selStep_done_inv (m : String → String → String → Bool) (cols : StrVec)
    (w : Int) (cond v : String) {st st' : SelSys}
    (h : SelStep m cols w cond v st st')
    (hd : ∀ c tp, st.sel = SelPhase.done c tp → 1 ≤ c) :
    ∀ c tp, st'.sel = SelPhase.done c tp → 1 ≤ c := by
  cases h with
  | firstScanDone hscan hpos =>
    intro c tp hdone
    simp only [SelPhase.done.injEq] at hdone
    omega
  | firstScanBlock hscan => intro c tp hdone; simp at hdone
  | rescanDone hscan hpos =>
    intro c tp hdone
    simp only [SelPhase.done.injEq] at hdone
    omega
  | rescanBlock hscan => intro c tp hdone; simp at hdone
  | spuriousWake => intro c tp hdone; simp at hdone
  | updateCommit hupd =>
    rename_i csv sel ucols uvals uw ucond uv uc rows'
    intro c tp hdone
    by_cases huc : 0 < uc
    · simp only [if_pos huc] at hdone
      cases sel with
      | scanning tp0 => simp [notifySel] at hdone
      | waiting tp0 => simp [notifySel] at hdone
      | woken tp0 => simp [notifySel] at hdone
      | done c0 tp0 =>
        simp only [notifySel, SelPhase.done.injEq] at hdone
        have := hd c0 tp0 rfl
        omega
    · simp only [if_neg huc] at hdone
      exact hd c tp hdone

/-- In every state the blocking-select system reaches from a fresh
`selectQuery` invocation, a returned selector saw a positive match count. -/
theorem selReach_done (m : String → String → String → Bool) (cols : StrVec)
    (w : Int) (cond v : String) (csv₀ : CSV) (st : SelSys)
    (h : Relation.ReflTransGen (SelStep m cols w cond v)
      ⟨csv₀, SelPhase.scanning ""⟩ st) :
    ∀ c tp, st.sel = SelPhase.done c tp → 1 ≤ c := by
  induction h with
  | refl => intro c tp hdone; simp at hdone
  | tail hsteps hstep ih => exact selStep_done_inv m cols w cond v hstep ih

/-- Every scheduler step preserves the bound invariant: the counter is at
most the maximum, strictly below it while the scheduler is between its
admission check and its increment. -/
theorem srvStep_inv (maxThr : Int) {st st' : SrvState} (h : SrvStep maxThr st st')
    (hinv : st.numThreads ≤ maxThr ∧
      (st.phase ≠ SrvPhase.accepting → st.numThreads < maxThr)) :
    st'.numThreads ≤ maxThr ∧
      (st'.phase ≠ SrvPhase.accepting → st'.numThreads < maxThr) := by
  obtain ⟨h1, h2⟩ := hinv
  cases h with
  | admitConn hlt => exact ⟨h1, fun _ => hlt⟩
  | spawn => exact ⟨h1, fun _ => h2 (by simp)⟩
  | increment =>
    refine ⟨?_, fun hc => absurd rfl hc⟩
    have := h2 (by simp)
    simp only at *
    omega
  | finish =>
    constructor
    · simp only at *; omega
    · intro hp
      have := h2 hp
      simp only at *
      omega

/-- Resolving an identifier that is itself the result of a resolution is
idempotent. -/
theorem resolvedId_idem (a f : String) :
    (if f = "" then (if f = "" then a else f) else f) = (if f = "" then a else f) := by
  by_cases hf : f = "" <;> simp [hf]

/-- Looking a key up right after inserting it yields the inserted value. -/
theorem mapAt_mapSet_self {α : Type} (mp : SMap α) (k : String) (v : α) :
    mapAt (mapSet mp k v) k = Except.ok v := by
  unfold mapAt
  rw [mapFind_mapSet_self]

/-- In every reachable state of the scheduler system the counter is bounded
by the maximum, and strictly below it between admission and increment. -/
theorem srvReach_inv (maxThr : Int) (h0 : 0 ≤ maxThr) (st : SrvState)
    (h : Relation.ReflTransGen (SrvStep maxThr) srvInit st) :
    st.numThreads ≤ maxThr ∧ (st.phase ≠ SrvPhase.accepting → st.numThreads < maxThr) := by
  induction h with
  | refl => exact ⟨h0, fun hc => absurd rfl hc⟩
  | tail hsteps hstep ih => exact srvStep_inv maxThr hstep ih

/-- When a row in the scanned list matches, the update scan's count is
positive. -/
theorem updateRows_mem_pos (m : String → String → String → Bool) (csv : CSV)
    (w : Int) (cols : StrVec) (cond v : String) (values : StrVec) (rows : List CSVRow) :
    ∀ (c : Nat) (rows' : List CSVRow) (r : CSVRow),
      r ∈ rows → rowMatch m w cond v r = Except.ok true →
      updateRows m csv w cols cond v values rows = Except.ok (c, rows') → 1 ≤ c := by
  induction rows with
  | nil => intro c rows' r hr; exact absurd hr (List.not_mem_nil r)
  | cons r0 rs ih =>
    intro c rows' r hr hm h
    rcases List.mem_cons.mp hr with heq | hmem
    · subst heq
      simp only [updateRows, hm, bindOk, if_pos] at h
      cases hwf : writeFields csv values cols 0 r with
      | error e => simp only [hwf, bindErr] at h; exact absurd h (by simp)
      | ok r1 =>
        simp only [hwf, bindOk] at h
        cases hrest : updateRows m csv w cols cond v values rs with
        | error e => simp only [hrest, bindErr] at h; exact absurd h (by simp)
        | ok p =>
          obtain ⟨c', rs'⟩ := p
          simp only [hrest, bindOk, Except.ok.injEq, Prod.mk.injEq] at h
          omega
    · cases hm0 : rowMatch m w cond v r0 with
      | error e => simp only [updateRows, hm0, bindErr] at h; exact absurd h (by simp)
      | ok b =>
        simp only [updateRows, hm0, bindOk] at h
        cases b with
        | true =>
          simp only [if_pos] at h
          cases hwf : writeFields csv values cols 0 r0 with
          | error e => simp only [hwf, bindErr] at h; exact absurd h (by simp)
          | ok r1 =>
            simp only [hwf, bindOk] at h
            cases hrest : updateRows m csv w cols cond v values rs with
            | error e => simp only [hrest, bindErr] at h; exact absurd h (by simp)
            | ok p =>
              obtain ⟨c', rs'⟩ := p
              simp only [hrest, bindOk, Except.ok.injEq, Prod.mk.injEq] at h
              have := ih c' rs' r hmem hm hrest
              omega
        | false =>
          simp only [if_neg, Bool.false_eq_true, not_false_iff] at h
          cases hrest : updateRows m csv w cols cond v values rs with
          | error e => simp only [hrest, bindErr] at h; exact absurd h (by simp)
          | ok p =>
            obtain ⟨c', rs'⟩ := p
            simp only [hrest, bindOk, Except.ok.injEq, Prod.mk.injEq] at h
            have := ih c' rs' r hmem hm hrest
            omega

/-- Every step of the blocking-update system preserves the invariant that a
returned updater saw a positive update count. -/
theorem updStep_done_inv (m : String → String → String → Bool) (bcols : StrVec)
    (bw : Int) (bcond bv : String) (bvals : StrVec) {st st' : UpdWaitSys}
    (h : UpdWaitStep m bcols bw bcond bv bvals st st')
    (hd : ∀ c, st.upd = UpdPhase.done c → 1 ≤ c) :
    ∀ c, st'.upd = UpdPhase.done c → 1 ≤ c := by
  cases h with
  | firstScanDone hscan hpos =>
    intro c hdone
    simp only [UpdPhase.done.injEq] at hdone
    omega
  | firstScanBlock hscan => intro c hdone; simp at hdone
  | rescanDone hscan hpos =>
    intro c hdone
    simp only [UpdPhase.done.injEq] at hdone
    omega
  | rescanBlock hscan => intro c hdone; simp at hdone
  | spuriousWake => intro c hdone; simp at hdone
  | envUpdate hupd =>
    rename_i csv ph ucols uvals uw ucond uv uc rows'
    intro c hdone
    by_cases huc : 0 < uc
    · simp only [if_pos huc] at hdone
      cases ph with
      | scanning => simp [notifyUpd] at hdone
      | waiting => simp [notifyUpd] at hdone
      | woken => simp [notifyUpd] at hdone
      | done c0 =>
        simp only [notifyUpd, UpdPhase.done.injEq] at hdone
        have := hd c0 rfl
        omega
    · simp only [if_neg huc] at hdone
      exact hd c hdone

/-- In every state the blocking-update system reaches from a fresh
`updateQuery` invocation, a returned updater saw a positive update count. -/
theorem updReach_done (m : String → String → String → Bool) (bcols : StrVec)
    (bw : Int) (bcond bv : String) (bvals : StrVec) (csv₀ : CSV) (st : UpdWaitSys)
    (h : Relation.ReflTransGen (UpdWaitStep m bcols bw bcond bv bvals)
      ⟨csv₀, UpdPhase.scanning⟩ st) :
    ∀ c, st.upd = UpdPhase.done c → 1 ≤ c := by
  induction h with
  | refl => intro c hdone; simp at hdone
  | tail hsteps hstep ih => exact updStep_done_inv m bcols bw bcond bv bvals hstep ih

/-! ## Claim theorems -/

/-- C1 counterexample: the claim says an update whose values list length
differs from the resolved column list length fails as malformed before any
row is touched. On the code, updating column `age` with the two values
`["31", "junk"]` does not fail: it returns normally with one row updated,
notifies, and the row's `age` field has been overwritten. -/
theorem updateQuery_arity_mismatch_counterexample :
    updateQuery mEq ⟨["name", "age"], [⟨["Ann", "30"]⟩]⟩ false ["age"] ["31", "junk"]
        (-1) "" ""
      = Except.ok (UpdResult.ret ⟨["name", "age"], [⟨["Ann", "31"]⟩]⟩ 1 true)
    ∧ (⟨["Ann", "31"]⟩ : CSVRow) ≠ (⟨["Ann", "30"]⟩ : CSVRow) :=
  ⟨rfl, by decide⟩

/-- C1 (amended): `updateQuery` performs no column/value arity validation.
Values beyond the resolved column list are never read: the update behaves
exactly as if the values list were truncated to the resolved column-list
length, so a longer values list is not an error and matching rows are still
updated. -/
theorem updateQuery_ignores_extra_values (m : String → String → String → Bool)
    (csv : CSV) (mustWait : Bool) (colNames values : StrVec) (w : Int)
    (cond v : String) (cols : StrVec)
    (hc : resolveColNames csv colNames = Except.ok cols) :
    updateQuery m csv mustWait colNames values w cond v
      = updateQuery m csv mustWait colNames (values.take cols.length) w cond v := by
  unfold updateQuery
  rw [hc]
  simp only [bindOk]
  unfold processUpdateRow
  rw [updateRows_take]

/-- C1 witness: the amended statement at the counterexample's input — the
extra value `"junk"` is ignored. -/
theorem updateQuery_ignores_extra_values_witness :
    resolveColNames ⟨["name", "age"], [⟨["Ann", "30"]⟩]⟩ ["age"] = Except.ok ["age"]
    ∧ updateQuery mEq ⟨["name", "age"], [⟨["Ann", "30"]⟩]⟩ false ["age"] ["31", "junk"]
        (-1) "" ""
      = updateQuery mEq ⟨["name", "age"], [⟨["Ann", "30"]⟩]⟩ false ["age"]
        (["31", "junk"].take (["age"] : StrVec).length) (-1) "" "" :=
  ⟨rfl, updateQuery_ignores_extra_values mEq ⟨["name", "age"], [⟨["Ann", "30"]⟩]⟩ false
    ["age"] ["31", "junk"] (-1) "" "" ["age"] rfl⟩

/-- C3: whenever `updateQuery` returns, the condition variable was notified
(to all waiters) exactly when the returned count is positive: a positive
count forces the notification before the return, and a zero count (possible
only when `waitMode` did not block the return) yields no notification. -/
theorem updateQuery_notifies_iff_positive (m : String → String → String → Bool)
    (csv : CSV) (mustWait : Bool) (colNames values : StrVec) (w : Int)
    (cond v : String) (csv' : CSV) (c : Nat) (ntf : Bool)
    (h : updateQuery m csv mustWait colNames values w cond v
      = Except.ok (UpdResult.ret csv' c ntf)) :
    (0 < c → ntf = true) ∧ (c = 0 → ntf = false) := by
  unfold updateQuery at h
  cases hres : resolveColNames csv colNames with
  | error e => simp only [hres, bindErr] at h; exact absurd h (by simp)
  | ok cols =>
    simp only [hres, bindOk] at h
    cases hupd : processUpdateRow m csv w cols cond v values with
    | error e => simp only [hupd, bindErr] at h; exact absurd h (by simp)
    | ok p =>
      simp only [hupd, bindOk] at h
      split at h
      · exact absurd h (by simp)
      · simp only [Except.ok.injEq, UpdResult.ret.injEq] at h
        obtain ⟨-, hc, hn⟩ := h
        subst hc
        subst hn
        refine ⟨fun hpos => ?_, fun hzero => ?_⟩
        · simp [hpos]
        · simp [hzero]

/-- C3 witness: a concrete single-row update returns count 1 with the
notification flag set. -/
theorem updateQuery_notifies_iff_positive_witness :
    ((0 : Nat) < 1 → true = true) ∧ ((1 : Nat) = 0 → true = false) :=
  updateQuery_notifies_iff_positive mEq peopleCSV false ["age"] ["31"] 0 "=" "Ann"
    ⟨["name", "age"], [⟨["Ann", "31"]⟩, ⟨["Bob", "25"]⟩]⟩ 1 true rfl

/-- C4: for both the select scan and the update scan, an omitted predicate
(`whereColIdx = -1`) matches every row, a supplied predicate matches exactly
the rows whose designated column satisfies it, and the returned count equals
the number of matched rows (assuming the designated column is omitted or in
range for every row). -/
theorem query_match_count (m : String → String → String → Bool)
    (cols values : StrVec) (csv : CSV) (w : Int) (cond v : String)
    (hw : w = -1 ∨ (0 ≤ w ∧ ∀ r ∈ csv.rows, w.toNat < r.fields.length)) :
    (∀ c s, processSelectRow m cols csv w cond v = Except.ok (c, s) →
        c = csv.rows.countP (rowMatchB m w cond v) ∧ (w = -1 → c = csv.rows.length))
    ∧ (∀ c rows', processUpdateRow m csv w cols cond v values = Except.ok (c, rows') →
        c = csv.rows.countP (rowMatchB m w cond v) ∧ (w = -1 → c = csv.rows.length)) := by
  have hall : ∀ r ∈ csv.rows, rowMatch m w cond v r = Except.ok (rowMatchB m w cond v r) := by
    intro r hr
    apply rowMatch_eq_rowMatchB
    rcases hw with hw | ⟨h0, hl⟩
    · exact Or.inl hw
    · exact Or.inr ⟨h0, hl r hr⟩
  have hlen : w = -1 → csv.rows.countP (rowMatchB m w cond v) = csv.rows.length := by
    intro hw1
    apply List.countP_eq_length.mpr
    intro r hr
    simp [rowMatchB, hw1]
  constructor
  · intro c s h
    have hc := scanRows_count m cols csv w cond v csv.rows c s hall h
    exact ⟨hc, fun hw1 => by rw [hc, hlen hw1]⟩
  · intro c rows' h
    have hc := updateRows_count m csv w cols cond v values csv.rows c rows' hall h
    exact ⟨hc, fun hw1 => by rw [hc, hlen hw1]⟩

/-- C4 witness: the spec's scenario table with the predicate `age = 30`,
used for both scans. -/
theorem query_match_count_witness :
    (∀ c s, processSelectRow mEq ["name"] peopleCSV 1 "=" "30" = Except.ok (c, s) →
        c = peopleCSV.rows.countP (rowMatchB mEq 1 "=" "30")
        ∧ ((1 : Int) = -1 → c = peopleCSV.rows.length))
    ∧ (∀ c rows', processUpdateRow mEq peopleCSV 1 ["name"] "=" "30" ["X"]
          = Except.ok (c, rows') →
        c = peopleCSV.rows.countP (rowMatchB mEq 1 "=" "30")
        ∧ ((1 : Int) = -1 → c = peopleCSV.rows.length)) :=
  query_match_count mEq ["name"] ["X"] peopleCSV 1 "=" "30" (by decide)

/-- C8: a requested column list `*` expands to all of the table's columns in
their defined order (`getColumnNames`), before any row is processed: both
`selectQuery` and `updateQuery` behave identically to a call that requests
the full column list explicitly. -/
theorem star_expands_to_all_columns (m : String → String → String → Bool)
    (csv : CSV) (mustWait : Bool) (values : StrVec) (w : Int) (cond v : String)
    (hne : csv.columnNames ≠ []) :
    resolveColNames csv ["*"] = Except.ok csv.getColumnNames
    ∧ selectQuery m csv mustWait ["*"] w cond v
        = selectQuery m csv mustWait csv.getColumnNames w cond v
    ∧ updateQuery m csv mustWait ["*"] values w cond v
        = updateQuery m csv mustWait csv.getColumnNames values w cond v := by
  have h1 : resolveColNames csv ["*"] = Except.ok csv.getColumnNames := by
    simp [resolveColNames, vecAt, bindOk]
  have h2 : resolveColNames csv csv.getColumnNames = Except.ok csv.getColumnNames := by
    unfold resolveColNames CSV.getColumnNames
    cases hcn : csv.columnNames with
    | nil => exact absurd hcn hne
    | cons hd tl =>
      by_cases hhd : hd = "*"
      · simp [vecAt, bindOk, hhd, CSV.getColumnNames, hcn]
      · simp [vecAt, bindOk, hhd]
  refine ⟨h1, ?_, ?_⟩
  · unfold selectQuery
    rw [h1, h2]
  · unfold updateQuery
    rw [h1, h2]

/-- C8 witness: on the scenario table, `*` and the explicit full column list
give identical behavior. -/
theorem star_expands_to_all_columns_witness :
    resolveColNames peopleCSV ["*"] = Except.ok peopleCSV.getColumnNames
    ∧ selectQuery mEq peopleCSV false ["*"] (-1) "" ""
        = selectQuery mEq peopleCSV false peopleCSV.getColumnNames (-1) "" ""
    ∧ updateQuery mEq peopleCSV false ["*"] ["A", "B"] (-1) "" ""
        = updateQuery mEq peopleCSV false peopleCSV.getColumnNames ["A", "B"] (-1) "" "" :=
  star_expands_to_all_columns mEq peopleCSV false ["A", "B"] (-1) "" "" (by decide)

/-- C5: every `loadAndGet` call substitutes the most-recently-used identifier
for an empty argument and records the (possibly substituted) identifier as
the new most-recent; and after a successful resolve, resolving the same
identifier again returns the same registry state and the same table from the
cache, regardless of the loader (no reload, no duplicate state). -/
theorem loadAndGet_recent_and_cached (load : String → Except String CSV)
    (st : Registry) (f : String) :
    ((loadAndGet load st f).1.recentCSV = if f = "" then st.recentCSV else f)
    ∧ ∀ st' csv, loadAndGet load st f = (st', Except.ok csv) →
        ∀ load', loadAndGet load' st' f = (st', Except.ok csv) := by
  constructor
  · simp only [loadAndGet]
    cases hfind : mapFind st.inMemoryCSV (if f = "" then st.recentCSV else f) with
    | some csv => simp [hfind]
    | none =>
      cases hload : load (if f = "" then st.recentCSV else f) with
      | error e => simp [hfind, hload]
      | ok csv => simp [hfind, hload]
  · intro st' csv h load'
    cases hfind : mapFind st.inMemoryCSV (if f = "" then st.recentCSV else f) with
    | some csv0 =>
      simp only [loadAndGet, hfind] at h
      simp only [Prod.mk.injEq, Except.ok.injEq] at h
      obtain ⟨h1, h2⟩ := h
      subst h1
      subst h2
      simp only [loadAndGet, resolvedId_idem, hfind]
    | none =>
      cases hload : load (if f = "" then st.recentCSV else f) with
      | error e =>
        simp only [loadAndGet, hfind, hload] at h
        simp at h
      | ok csv1 =>
        simp only [loadAndGet, hfind, hload, mapAt_mapSet_self] at h
        simp only [Prod.mk.injEq, Except.ok.injEq] at h
        obtain ⟨h1, h2⟩ := h
        subst h1
        subst h2
        simp only [loadAndGet, resolvedId_idem, mapFind_mapSet_self]

/-- C5 witness: a successful load of `t.csv` into an empty registry, after
which a second resolve of `t.csv` hits the cache even under a loader that
always fails. -/
theorem loadAndGet_recent_and_cached_witness :
    ((loadAndGet (fun i => Except.ok ⟨[i], []⟩) ⟨"", []⟩ "t.csv").1.recentCSV = "t.csv")
    ∧ loadAndGet (fun _ => Except.error "io")
        ⟨"t.csv", [("t.csv", ⟨["t.csv"], []⟩)]⟩ "t.csv"
      = (⟨"t.csv", [("t.csv", ⟨["t.csv"], []⟩)]⟩, Except.ok ⟨["t.csv"], []⟩) := by
  constructor
  · exact (loadAndGet_recent_and_cached (fun i => Except.ok ⟨[i], []⟩) ⟨"", []⟩ "t.csv").1
  · exact (loadAndGet_recent_and_cached (fun i => Except.ok ⟨[i], []⟩) ⟨"", []⟩ "t.csv").2
      ⟨"t.csv", [("t.csv", ⟨["t.csv"], []⟩)]⟩ ⟨["t.csv"], []⟩ rfl
      (fun _ => Except.error "io")

/-- C6: when the load from the source fails, the error propagates to the
caller, the identifier is never inserted into the registry map, and a
subsequent resolve of the same identifier retries the load (and succeeds if
the retried load succeeds, inserting the table only then). -/
theorem loadAndGet_failure_not_inserted (load : String → Except String CSV)
    (st : Registry) (f : String) (st' : Registry) (e : String)
    (h : loadAndGet load st f = (st', Except.error e)) :
    st'.inMemoryCSV = st.inMemoryCSV
    ∧ load (if f = "" then st.recentCSV else f) = Except.error e
    ∧ ∀ load' csv, load' (if f = "" then st.recentCSV else f) = Except.ok csv →
        loadAndGet load' st' f
          = (⟨if f = "" then st.recentCSV else f,
              mapSet st.inMemoryCSV (if f = "" then st.recentCSV else f) csv⟩,
             Except.ok csv) := by
  cases hfind : mapFind st.inMemoryCSV (if f = "" then st.recentCSV else f) with
  | some csv0 =>
    simp only [loadAndGet, hfind] at h
    simp at h
  | none =>
    cases hload : load (if f = "" then st.recentCSV else f) with
    | ok csv1 =>
      simp only [loadAndGet, hfind, hload, mapAt_mapSet_self] at h
      simp at h
    | error e1 =>
      simp only [loadAndGet, hfind, hload] at h
      simp only [Prod.mk.injEq, Except.error.injEq] at h
      obtain ⟨h1, h2⟩ := h
      subst h1
      subst h2
      refine ⟨rfl, rfl, ?_⟩
      intro load' csv hsucc
      simp only [loadAndGet, resolvedId_idem, hfind, hsucc, mapAt_mapSet_self]

/-- C6 witness: a failing load of `bad.csv` leaves the registry map empty
and a retry with a succeeding loader inserts the table. -/
theorem loadAndGet_failure_not_inserted_witness :
    (⟨"bad.csv", ([] : SMap CSV)⟩ : Registry).inMemoryCSV = ([] : SMap CSV)
    ∧ ∀ (load' : String → Except String CSV) csv, load' "bad.csv" = Except.ok csv →
        loadAndGet load' ⟨"bad.csv", []⟩ "bad.csv"
          = (⟨"bad.csv", mapSet [] "bad.csv" csv⟩, Except.ok csv) := by
  have h := loadAndGet_failure_not_inserted (fun _ => Except.error "io") ⟨"old", []⟩
    "bad.csv" ⟨"bad.csv", []⟩ "io" rfl
  simpa using h

/-- C9: the most-recent identifier is recorded before the load is attempted,
so on a failed load the most-recent identifier is the failing identifier,
and a subsequent empty-identifier resolve targets the failed source (failing
again whenever its loader still fails) rather than the previously loaded
identifier. -/
theorem loadAndGet_records_failing_recent (load : String → Except String CSV)
    (st : Registry) (f : String) (st' : Registry) (e : String)
    (h : loadAndGet load st f = (st', Except.error e)) :
    st'.recentCSV = (if f = "" then st.recentCSV else f)
    ∧ ∀ (load' : String → Except String CSV) e', load' st'.recentCSV = Except.error e' →
        loadAndGet load' st' "" = (st', Except.error e') := by
  cases hfind : mapFind st.inMemoryCSV (if f = "" then st.recentCSV else f) with
  | some csv0 =>
    simp only [loadAndGet, hfind] at h
    simp at h
  | none =>
    cases hload : load (if f = "" then st.recentCSV else f) with
    | ok csv1 =>
      simp only [loadAndGet, hfind, hload, mapAt_mapSet_self] at h
      simp at h
    | error e1 =>
      simp only [loadAndGet, hfind, hload] at h
      simp only [Prod.mk.injEq, Except.error.injEq] at h
      obtain ⟨h1, h2⟩ := h
      subst h1
      subst h2
      refine ⟨rfl, ?_⟩
      intro load' e' hfail
      simp only at hfail
      simp [loadAndGet, hfind, hfail]

/-- C9 witness: after `bad.csv` fails to load, the most-recent identifier is
`bad.csv` and an empty-identifier resolve retries (and fails at) `bad.csv`,
not the previous identifier `old`. -/
theorem loadAndGet_records_failing_recent_witness :
    (⟨"bad.csv", ([] : SMap CSV)⟩ : Registry).recentCSV = "bad.csv"
    ∧ ∀ (load' : String → Except String CSV) e', load' "bad.csv" = Except.error e' →
        loadAndGet load' ⟨"bad.csv", []⟩ "" = (⟨"bad.csv", []⟩, Except.error e') := by
  have h := loadAndGet_records_failing_recent (fun _ => Except.error "io") ⟨"old", []⟩
    "bad.csv" ⟨"bad.csv", []⟩ "io" rfl
  simpa using h

/-- C10: when the most-recent identifier names a local file that is not
resident in the registry map, `saveQuery` opens (creating or truncating) the
destination file before the registry lookup, and the lookup failure then
propagates as an exception, leaving the on-disk file truncated to empty
rather than unchanged. -/
theorem saveQuery_truncates_before_lookup (csvSave : CSV → String)
    (st : Registry) (fs : FS)
    (h1 : st.recentCSV ≠ "") (h2 : hasHttpScheme st.recentCSV = false)
    (h3 : mapFind st.inMemoryCSV st.recentCSV = none) :
    saveQuery csvSave st fs
      = (mapSet fs st.recentCSV "", Except.error "unordered_map::at: key not found")
    ∧ mapFind (mapSet fs st.recentCSV "") st.recentCSV = some "" := by
  have hcond : ¬(st.recentCSV = "" ∨ hasHttpScheme st.recentCSV = true) := by
    simp [h1, h2]
  constructor
  · simp only [saveQuery, h3]
    rw [if_neg hcond]
  · exact mapFind_mapSet_self fs st.recentCSV ""

/-- C10 witness: saving with most-recent `t.csv` absent from the registry
truncates the existing file contents `old` to the empty string and throws. -/
theorem saveQuery_truncates_before_lookup_witness :
    saveQuery (fun _ => "data") ⟨"t.csv", []⟩ [("t.csv", "old")]
      = (mapSet [("t.csv", "old")] "t.csv" "",
         Except.error "unordered_map::at: key not found")
    ∧ mapFind (mapSet [("t.csv", "old")] "t.csv" "") "t.csv" = some "" :=
  saveQuery_truncates_before_lookup (fun _ => "data") ⟨"t.csv", []⟩ [("t.csv", "old")]
    (by decide) (by decide) rfl

/-- C2: for a select or an update invoked with `waitMode` set, whose table
currently has zero matching rows: (i) in every reachable state of the
blocking-select system a finished selector's count is positive, and in every
reachable state of the blocking-update system a finished updater's count is
positive — so neither call returns until some scan of its own finds at least
one match, which on an unchanged table requires a concurrent update; (ii)
when a concurrent update commits with a positive count while the client is
blocked, the notification wakes the blocked selector (resp. the blocked
updater), the selector's very next re-scan of the updated table returns with
a positive count and with the newly matching row's formatted line in the
output, and the updater's very next re-scan updates the newly matching row
and returns with a positive count. -/
theorem blocking_query_unblocks_on_update
    (m : String → String → String → Bool) (cols : StrVec) (w : Int) (cond v : String)
    (bcols : StrVec) (bw : Int) (bcond bv : String) (bvals : StrVec)
    (csv₀ csv : CSV) (tp : String) (ucols uvals : StrVec) (uw : Int) (ucond uv : String)
    (uc : Nat) (rows' : List CSVRow) (r r2 : CSVRow) (c : Nat) (s : String)
    (c2 : Nat) (rows2 : List CSVRow)
    (hupd : processUpdateRow m csv uw ucols ucond uv uvals = Except.ok (uc, rows'))
    (huc : 0 < uc)
    (hr : r ∈ rows')
    (hm : rowMatch m w cond v r = Except.ok true)
    (hscan : processSelectRow m cols ⟨csv.columnNames, rows'⟩ w cond v = Except.ok (c, s))
    (hr2 : r2 ∈ rows')
    (hm2 : rowMatch m bw bcond bv r2 = Except.ok true)
    (hscan2 : processUpdateRow m ⟨csv.columnNames, rows'⟩ bw bcols bcond bv bvals
      = Except.ok (c2, rows2)) :
    (∀ st : SelSys, Relation.ReflTransGen (SelStep m cols w cond v)
        ⟨csv₀, SelPhase.scanning ""⟩ st →
      ∀ c' tp', st.sel = SelPhase.done c' tp' → 1 ≤ c')
    ∧ (∀ st : UpdWaitSys, Relation.ReflTransGen (UpdWaitStep m bcols bw bcond bv bvals)
        ⟨csv₀, UpdPhase.scanning⟩ st →
      ∀ c', st.upd = UpdPhase.done c' → 1 ≤ c')
    ∧ SelStep m cols w cond v ⟨csv, SelPhase.waiting tp⟩
        ⟨⟨csv.columnNames, rows'⟩, SelPhase.woken tp⟩
    ∧ UpdWaitStep m bcols bw bcond bv bvals ⟨csv, UpdPhase.waiting⟩
        ⟨⟨csv.columnNames, rows'⟩, UpdPhase.woken⟩
    ∧ 1 ≤ c
    ∧ SelStep m cols w cond v ⟨⟨csv.columnNames, rows'⟩, SelPhase.woken tp⟩
        ⟨⟨csv.columnNames, rows'⟩, SelPhase.done c (tp ++ s)⟩
    ∧ 1 ≤ c2
    ∧ UpdWaitStep m bcols bw bcond bv bvals ⟨⟨csv.columnNames, rows'⟩, UpdPhase.woken⟩
        ⟨⟨csv.columnNames, rows2⟩, UpdPhase.done c2⟩
    ∧ ∃ pre line post, selectLine ⟨csv.columnNames, rows'⟩ cols r = Except.ok line
        ∧ s = pre ++ (line ++ "\n") ++ post := by
  obtain ⟨hc1, pre, line, post, hl, hs⟩ :=
    scanRows_mem_line m cols ⟨csv.columnNames, rows'⟩ w cond v rows' c s r hr hm hscan
  have hc2 : 1 ≤ c2 :=
    updateRows_mem_pos m ⟨csv.columnNames, rows'⟩ bw bcols bcond bv bvals rows'
      c2 rows2 r2 hr2 hm2 hscan2
  refine ⟨fun st hreach => selReach_done m cols w cond v csv₀ st hreach,
    fun st hreach => updReach_done m bcols bw bcond bv bvals csv₀ st hreach,
    ?_, ?_, hc1, ?_, hc2, ?_, pre, line, post, hl, hs⟩
  · have hstep : SelStep m cols w cond v ⟨csv, SelPhase.waiting tp⟩
        ⟨⟨csv.columnNames, rows'⟩,
          if 0 < uc then notifySel (SelPhase.waiting tp) else SelPhase.waiting tp⟩ :=
      SelStep.updateCommit hupd
    rw [if_pos huc] at hstep
    exact hstep
  · have hstep : UpdWaitStep m bcols bw bcond bv bvals ⟨csv, UpdPhase.waiting⟩
        ⟨⟨csv.columnNames, rows'⟩,
          if 0 < uc then notifyUpd UpdPhase.waiting else UpdPhase.waiting⟩ :=
      UpdWaitStep.envUpdate hupd
    rw [if_pos huc] at hstep
    exact hstep
  · exact SelStep.rescanDone hscan hc1
  · exact UpdWaitStep.rescanDone hscan2 hc2

/-- C2 witness: the spec's §8 scenario — a select for `name where age = 99`
and an update `name = Bobby where age = 99` are blocked on the scenario
table; a concurrent `update age = 99 where name = Bob` commits one row and
wakes them: the selector's next re-scan returns one row whose output line is
`Bob`, and the blocked updater's next re-scan updates that row's name to
`Bobby` and returns count 1. -/
theorem blocking_query_unblocks_on_update_witness :
    (∀ st : SelSys, Relation.ReflTransGen (SelStep mEq ["name"] 1 "=" "99")
        ⟨peopleCSV, SelPhase.scanning ""⟩ st →
      ∀ c' tp', st.sel = SelPhase.done c' tp' → 1 ≤ c')
    ∧ (∀ st : UpdWaitSys,
        Relation.ReflTransGen (UpdWaitStep mEq ["name"] 1 "=" "99" ["Bobby"])
          ⟨peopleCSV, UpdPhase.scanning⟩ st →
      ∀ c', st.upd = UpdPhase.done c' → 1 ≤ c')
    ∧ SelStep mEq ["name"] 1 "=" "99" ⟨peopleCSV, SelPhase.waiting ""⟩
        ⟨⟨["name", "age"], [⟨["Ann", "30"]⟩, ⟨["Bob", "99"]⟩]⟩, SelPhase.woken ""⟩
    ∧ UpdWaitStep mEq ["name"] 1 "=" "99" ["Bobby"] ⟨peopleCSV, UpdPhase.waiting⟩
        ⟨⟨["name", "age"], [⟨["Ann", "30"]⟩, ⟨["Bob", "99"]⟩]⟩, UpdPhase.woken⟩
    ∧ 1 ≤ 1
    ∧ SelStep mEq ["name"] 1 "=" "99"
        ⟨⟨["name", "age"], [⟨["Ann", "30"]⟩, ⟨["Bob", "99"]⟩]⟩, SelPhase.woken ""⟩
        ⟨⟨["name", "age"], [⟨["Ann", "30"]⟩, ⟨["Bob", "99"]⟩]⟩,
          SelPhase.done 1 ("" ++ "Bob\n")⟩
    ∧ 1 ≤ 1
    ∧ UpdWaitStep mEq ["name"] 1 "=" "99" ["Bobby"]
        ⟨⟨["name", "age"], [⟨["Ann", "30"]⟩, ⟨["Bob", "99"]⟩]⟩, UpdPhase.woken⟩
        ⟨⟨["name", "age"], [⟨["Ann", "30"]⟩, ⟨["Bobby", "99"]⟩]⟩, UpdPhase.done 1⟩
    ∧ ∃ pre line post,
        selectLine ⟨["name", "age"], [⟨["Ann", "30"]⟩, ⟨["Bob", "99"]⟩]⟩ ["name"]
          ⟨["Bob", "99"]⟩ = Except.ok line
        ∧ "Bob\n" = pre ++ (line ++ "\n") ++ post :=
  blocking_query_unblocks_on_update mEq ["name"] 1 "=" "99" ["name"] 1 "=" "99"
    ["Bobby"] peopleCSV peopleCSV "" ["age"] ["99"] 0 "=" "Bob" 1
    [⟨["Ann", "30"]⟩, ⟨["Bob", "99"]⟩] ⟨["Bob", "99"]⟩ ⟨["Bob", "99"]⟩ 1 "Bob\n"
    1 [⟨["Ann", "30"]⟩, ⟨["Bobby", "99"]⟩]
    rfl (by decide) (by decide) rfl rfl (by decide) rfl rfl

/-- C7: in the scheduler's step relation, a worker is dispatched only from a
state whose counter is strictly below the configured maximum (the
`admitConn` step), the counter is incremented on dispatch and decremented (with a
condition signal) when a worker finishes — and consequently the counter
never exceeds the maximum in any reachable state. -/
theorem scheduler_never_exceeds_max (maxThr : Int) (h0 : 0 ≤ maxThr)
    (st : SrvState) (h : Relation.ReflTransGen (SrvStep maxThr) srvInit st) :
    st.numThreads ≤ maxThr :=
  (srvReach_inv maxThr h0 st h).1

/-- C7 witness: with a maximum of 2, the state reached by admitting,
spawning and counting one worker keeps the counter within the bound. -/
theorem scheduler_never_exceeds_max_witness :
    (⟨1, SrvPhase.accepting, 1⟩ : SrvState).numThreads ≤ (2 : Int) := by
  have s1 : SrvStep 2 srvInit ⟨0, SrvPhase.admitted, 0⟩ := SrvStep.admitConn (by norm_num)
  have s2 : SrvStep 2 ⟨0, SrvPhase.admitted, 0⟩ ⟨0, SrvPhase.spawned, 1⟩ := SrvStep.spawn
  have s3 : SrvStep 2 ⟨0, SrvPhase.spawned, 1⟩ ⟨1, SrvPhase.accepting, 1⟩ :=
    SrvStep.increment
  exact scheduler_never_exceeds_max 2 (by norm_num) ⟨1, SrvPhase.accepting, 1⟩
    (Relation.ReflTransGen.tail
      (Relation.ReflTransGen.tail (Relation.ReflTransGen.single s1) s2) s3)

end SQLAir
